import Mathlib

/-!
Shallow embedding of the instrument accounting core (instrument.go) of the
gotrader repository, together with theorems settling the specification
claims about it.

Modelling conventions:
- Go float64 values are modelled as rationals (ℚ); every claim below is
  about the algebraic structure of assignments (sums, absolute differences,
  maxima, field frames), not about rounding.
- The shared atomic cells (the instrument's ask, bid and leverage, and the
  escaped local leverage parameter of newInstrument) are modelled by a
  store mapping cell identifiers to rationals; a Go pointer to a float
  becomes a CellId.  This makes the aliasing structure (which trade or
  position observes which cell) explicit.
- The registry (a third-party hash map with overwrite-on-duplicate Set,
  Get and Del) is modelled as an association list with unique keys.
- Locks, logging and goroutines are not modelled; every operation is a
  total function on the state, which is exactly the "absorbed, never
  raised" error discipline of the source.
-/

namespace GoTrader

/-- Identifier of a shared mutable float cell (a Go pointer target). -/
abbrev CellId := Nat

/-- The shared-cell store: current value of every cell. -/
abbrev Store := CellId → ℚ

/-- Write a value into one cell of the store. -/
def write (s : Store) (c : CellId) (v : ℚ) : Store :=
  fun c2 => if c2 = c then v else s c2

/-- An allocation state: the store plus the next fresh cell identifier. -/
structure Alloc where
  store : Store
  next : CellId

/-- Allocate a fresh cell holding v. -/
def Alloc.alloc (a : Alloc) (v : ℚ) : CellId × Alloc :=
  (a.next, ⟨write a.store a.next v, a.next + 1⟩)

/-- Trade side.  Modelled from the spec: the Side type is repository code
not present under src/; the spec fixes it to the two values Long and
Short. -/
inductive Side where
  | Long
  | Short
deriving DecidableEq, Repr

/-- Hedge is a Go named integer type (type Hedge int); values outside the
three declared constants are representable, which is what the silent
no-match branch of the margin switch is about. -/
abbrev Hedge := Int

/-- First Hedge constant (iota = 0, the Go zero value). -/
def FullHedge : Hedge := 0

/-- Second Hedge constant (iota = 1). -/
def NoHedge : Hedge := 1

/-- Third Hedge constant (iota = 2). -/
def HalfHedge : Hedge := 2

/-- A single trade.  Fields mirror the Trade struct as used by
instrument.go: identity facts fixed at creation, plus the shared-cell
references currentPrice and leverage that openTrade assigns, plus the
mutable accrued fees.  Modelled from the spec: the Trade struct itself is
repository code not present under src/; the fields below are the ones the
spec names (identifier, instrument name, side, units, open time, open
price, live current-price reference, shared leverage reference, accrued
fees). -/
structure Trade where
  id : String
  instrument : String
  side : Side
  units : Int
  openTime : Nat
  openPrice : ℚ
  currentPrice : CellId
  leverage : CellId
  fees : ℚ
deriving DecidableEq, Repr

/-- Modelled from the spec: newTrade is repository code not present under
src/.  It records the identity facts; openTrade then assigns the
currentPrice and leverage cell references (initialised to cell 0 here,
exactly as the Go zero value of a pointer is nil until assigned). -/
def newTrade (id instrument : String) (side : Side) (units : Int)
    (openTime : Nat) (openPrice : ℚ) : Trade :=
  { id := id, instrument := instrument, side := side, units := units,
    openTime := openTime, openPrice := openPrice,
    currentPrice := 0, leverage := 0, fees := 0 }

/-- Modelled from the spec: the trade's unrealized P&L.  Long: (current
price − open price) × units; Short: (open price − current price) × units;
the currency conversion collaborator is modelled as the identity (the
instrument constructor in the source leaves ccyConversion unset). -/
def Trade.unrealizedPnl (tr : Trade) (s : Store) : ℚ :=
  match tr.side with
  | Side.Long => (s tr.currentPrice - tr.openPrice) * tr.units
  | Side.Short => (tr.openPrice - s tr.currentPrice) * tr.units

/-- Modelled from the spec: margin required by one trade = |units| ×
current price / leverage, reading the trade's shared cells. -/
def Trade.marginRequired (tr : Trade) (s : Store) : ℚ :=
  |(tr.units : ℚ)| * s tr.currentPrice / s tr.leverage

/-- One side's Position.  Modelled from the spec: the Position struct is
repository code not present under src/; it owns the working set of trades
on its side, a reference to the leverage value it was constructed with,
and the derived aggregates. -/
structure Position where
  side : Side
  leverageRef : CellId
  trades : List Trade
  unrealizedNetProfit : ℚ
  unrealizedEffectiveProfit : ℚ
  chargedFees : ℚ
  marginUsed : ℚ
deriving DecidableEq, Repr

/-- Modelled from the spec: newPosition is repository code not present
under src/.  newInstrument calls it with the side and the address of its
local leverage parameter. -/
def newPosition (side : Side) (leverageRef : CellId) : Position :=
  { side := side, leverageRef := leverageRef, trades := [],
    unrealizedNetProfit := 0, unrealizedEffectiveProfit := 0,
    chargedFees := 0, marginUsed := 0 }

/-- Modelled from the spec: Position.openTrade adds the trade to the
side's working set. -/
def Position.openTrade (p : Position) (tr : Trade) : Position :=
  { p with trades := p.trades ++ [tr] }

/-- Modelled from the spec: Position.closeTrade removes the trade from
the side's working set, excluding it from all subsequent recomputation. -/
def Position.closeTrade (p : Position) (tr : Trade) : Position :=
  { p with trades := p.trades.filter (fun t => t.id ≠ tr.id) }

/-- Modelled from the spec: Position.calculateUnrealized sums every open
trade's unrealized P&L into the side's net profit and every trade's
accrued fees into the side's charged fees; effective profit = net profit
+ charged fees. -/
def Position.calculateUnrealized (p : Position) (s : Store) : Position :=
  let net := (p.trades.map (fun tr => tr.unrealizedPnl s)).sum
  let fees := (p.trades.map (fun tr => tr.fees)).sum
  { p with unrealizedNetProfit := net,
           chargedFees := fees,
           unrealizedEffectiveProfit := net + fees }

/-- Modelled from the spec: Position.calculateMarginUsed sums each open
trade's required margin. -/
def Position.calculateMarginUsed (p : Position) (s : Store) : Position :=
  { p with marginUsed := (p.trades.map (fun tr => tr.marginRequired s)).sum }

/-- The registry: the third-party hash map (identifier → Trade), modelled
as an association list.  Set overwrites an existing key. -/
abbrev Registry := List (String × Trade)

/-- Hash-map Set: insert, overwriting any entry with the same key. -/
def hmSet (m : Registry) (k : String) (v : Trade) : Registry :=
  (k, v) :: m.filter (fun p => p.1 ≠ k)

/-- Hash-map Get. -/
def hmGet (m : Registry) (k : String) : Option Trade :=
  (m.find? (fun p => p.1 = k)).map (fun p => p.2)

/-- Hash-map Del. -/
def hmDel (m : Registry) (k : String) : Registry :=
  m.filter (fun p => p.1 ≠ k)

/-- A market tick carrying the new ask and bid (the two fields
updatePrice reads). -/
structure Tick where
  Ask : ℚ
  Bid : ℚ
deriving DecidableEq, Repr

/-- The Instrument struct of instrument.go.  The *atomic.Float64 fields
(leverage, ask, bid) are cell identifiers into the shared store; the lock
and the unset ccyConversion field are not modelled. -/
structure Instrument where
  name : String
  baseCurrency : String
  quoteCurrency : String
  longPosition : Position
  shortPosition : Position
  trades : Registry
  tradesTimeOrder : List String
  unrealizedNetProfit : ℚ
  unrealizedEffectiveProfit : ℚ
  marginUsed : ℚ
  leverage : CellId
  chargedFees : ℚ
  ask : CellId
  bid : CellId
  hedgeType : Hedge
deriving DecidableEq, Repr

/-- newInstrument of instrument.go.  Allocates the atomic leverage cell,
the escaped local leverage parameter (whose address is handed to BOTH
newPosition calls), and the ask and bid cells initialised to 0.  The
hedgeType field is never assigned by the constructor, so it holds the Go
zero value of Hedge, which is FullHedge.  Returns the instrument and the
allocation state after construction. -/
def newInstrument (name baseCurrency quoteCurrency : String)
    (leverage : ℚ) (a : Alloc) : Instrument × Alloc :=
  let (cLev, a1) := a.alloc leverage
  let (cLocal, a2) := a1.alloc leverage
  let (cAsk, a3) := a2.alloc 0
  let (cBid, a4) := a3.alloc 0
  ({ name := name, baseCurrency := baseCurrency,
     quoteCurrency := quoteCurrency,
     longPosition := newPosition Side.Long cLocal,
     shortPosition := newPosition Side.Short cLocal,
     trades := [], tradesTimeOrder := [],
     unrealizedNetProfit := 0, unrealizedEffectiveProfit := 0,
     marginUsed := 0, leverage := cLev, chargedFees := 0,
     ask := cAsk, bid := cBid, hedgeType := FullHedge }, a4)

/-- Instrument.openTrade of instrument.go.  In the source the trade is a
pointer: it is inserted into the registry and index first and its
currentPrice/leverage fields are assigned afterwards, so the registered
trade carries the final field values; the value model therefore builds
the final trade record and then inserts it.  The ordered index gains id
at the tail unconditionally (also when id is already registered). -/
def Instrument.openTrade (i : Instrument) (id : String) (side : Side)
    (openTime : Nat) (units : Int) (openPrice : ℚ) : Instrument :=
  let trade0 := newTrade id i.name side units openTime openPrice
  let trade1 := { trade0 with leverage := i.leverage }
  if side = Side.Short then
    let trade := { trade1 with currentPrice := i.ask }
    { i with trades := hmSet i.trades id trade,
             tradesTimeOrder := i.tradesTimeOrder ++ [id],
             shortPosition := i.shortPosition.openTrade trade }
  else
    let trade := { trade1 with currentPrice := i.bid }
    { i with trades := hmSet i.trades id trade,
             tradesTimeOrder := i.tradesTimeOrder ++ [id],
             longPosition := i.longPosition.openTrade trade }

/-- Instrument.closeTrade of instrument.go.  The ordered-index Delete
runs first (Modelled from the spec: sortedTrades is repository code not
present under src/; its Delete removes the identifier wherever it
resides, without reordering survivors).  Then the registry is consulted:
if the id is absent a warning is logged and nothing further happens;
otherwise the entry is deleted and the trade is handed to its side's
Position. -/
def Instrument.closeTrade (i : Instrument) (id : String) : Instrument :=
  let i1 := { i with tradesTimeOrder := i.tradesTimeOrder.filter (fun x => x ≠ id) }
  match hmGet i1.trades id with
  | none => i1
  | some trade =>
    let i2 := { i1 with trades := hmDel i1.trades id }
    if trade.side = Side.Long then
      { i2 with longPosition := i2.longPosition.closeTrade trade }
    else
      { i2 with shortPosition := i2.shortPosition.closeTrade trade }

/-- Instrument.calculateUnrealized of instrument.go: recompute both
positions, then sum their figures into the instrument-level fields. -/
def Instrument.calculateUnrealized (i : Instrument) (s : Store) : Instrument :=
  let sp := i.shortPosition.calculateUnrealized s
  let lp := i.longPosition.calculateUnrealized s
  { i with shortPosition := sp, longPosition := lp,
           unrealizedNetProfit := lp.unrealizedNetProfit + sp.unrealizedNetProfit,
           unrealizedEffectiveProfit :=
             lp.unrealizedEffectiveProfit + sp.unrealizedEffectiveProfit,
           chargedFees := lp.chargedFees + sp.chargedFees }

/-- Instrument.calculateMarginUsed of instrument.go: recompute both
positions' margins, then combine per the hedge-policy switch.  A
hedgeType matching none of the three constants falls through without
assigning marginUsed. -/
def Instrument.calculateMarginUsed (i : Instrument) (s : Store) : Instrument :=
  let sp := i.shortPosition.calculateMarginUsed s
  let lp := i.longPosition.calculateMarginUsed s
  let i2 := { i with shortPosition := sp, longPosition := lp }
  if i.hedgeType = NoHedge then
    { i2 with marginUsed := sp.marginUsed + lp.marginUsed }
  else if i.hedgeType = FullHedge then
    { i2 with marginUsed := |sp.marginUsed - lp.marginUsed| }
  else if i.hedgeType = HalfHedge then
    { i2 with marginUsed :=
        if sp.marginUsed > lp.marginUsed then sp.marginUsed else lp.marginUsed }
  else i2

/-- Instrument.updatePrice of instrument.go: store the tick's ask then
bid into the shared cells; the instrument record itself is untouched and
no recomputation happens. -/
def Instrument.updatePrice (i : Instrument) (tick : Tick) (s : Store) :
    Instrument × Store :=
  (i, write (write s i.ask tick.Ask) i.bid tick.Bid)

/-- A trade-lifecycle event: one openTrade or closeTrade call. -/
inductive Event where
  | openT (id : String) (side : Side) (openTime : Nat) (units : Int) (openPrice : ℚ)
  | closeT (id : String)
deriving DecidableEq, Repr

/-- One lifecycle call applied to an instrument. -/
def stepEvent (i : Instrument) : Event → Instrument
  | Event.openT id side t u px => i.openTrade id side t u px
  | Event.closeT id => i.closeTrade id

/-- A whole sequence of lifecycle calls. -/
def runEvents (i : Instrument) : List Event → Instrument
  | [] => i
  | e :: es => runEvents (stepEvent i e) es

/-- The registry/index invariant of the spec: the registry's key set and
the ordered index hold the same identifiers, each exactly once. -/
def RegIndexInv (i : Instrument) : Prop :=
  (i.trades.map Prod.fst).Perm i.tradesTimeOrder ∧ i.tradesTimeOrder.Nodup

instance (i : Instrument) : Decidable (RegIndexInv i) := by
  unfold RegIndexInv; infer_instance

/-- A call sequence in which no openTrade reuses an identifier that is
registered at the moment of the call. -/
def NoDupOpens (i : Instrument) : List Event → Prop
  | [] => True
  | e :: es =>
    (match e with
     | Event.openT id _ _ _ _ => hmGet i.trades id = none
     | Event.closeT _ => True) ∧ NoDupOpens (stepEvent i e) es

instance (i : Instrument) (es : List Event) : Decidable (NoDupOpens i es) := by
  induction es generalizing i with
  | nil => exact .isTrue trivial
  | cons e es ih =>
    unfold NoDupOpens
    have : Decidable (NoDupOpens (stepEvent i e) es) := ih _
    cases e <;> exact instDecidableAnd

/-- A base allocation state: empty store, first cell 0. -/
def alloc0 : Alloc := ⟨fun _ => 0, 0⟩

/-- A concrete instrument for witnesses: EUR/USD at leverage 50. -/
def instEx : Instrument := (newInstrument "EUR_USD" "EUR" "USD" 50 alloc0).1

/-- The store right after constructing instEx. -/
def storeEx : Store := (newInstrument "EUR_USD" "EUR" "USD" 50 alloc0).2.store

/-- instEx with one long and one short trade opened. -/
def instEx2 : Instrument :=
  (instEx.openTrade "a" Side.Long 0 1000 1).openTrade "b" Side.Short 1 500 2

/-- The store after a tick ask = 1.10, bid = 1.09 on instEx. -/
def storeEx3 : Store := (instEx2.updatePrice ⟨11/10, 109/100⟩ storeEx).2

/-! Basic facts about the store, the registry and the margin switch. -/

theorem write_read_same (s : Store) (c : CellId) (v : ℚ) : write s c v c = v := by
  simp [write]

theorem write_read_other (s : Store) (c : CellId) (v : ℚ) (c2 : CellId)
    (h : c2 ≠ c) : write s c v c2 = s c2 := by
  simp [write, h]

theorem hmGet_hmSet_self (m : Registry) (k : String) (v : Trade) :
    hmGet (hmSet m k v) k = some v := by
  simp [hmGet, hmSet]

theorem calculateMarginUsed_short (i : Instrument) (s : Store) :
    (i.calculateMarginUsed s).shortPosition = i.shortPosition.calculateMarginUsed s := by
  unfold Instrument.calculateMarginUsed
  split_ifs <;> rfl

theorem calculateMarginUsed_long (i : Instrument) (s : Store) :
    (i.calculateMarginUsed s).longPosition = i.longPosition.calculateMarginUsed s := by
  unfold Instrument.calculateMarginUsed
  split_ifs <;> rfl

theorem calculateMarginUsed_margin_noHedge (i : Instrument) (s : Store)
    (h : i.hedgeType = NoHedge) :
    (i.calculateMarginUsed s).marginUsed =
      (i.shortPosition.calculateMarginUsed s).marginUsed
        + (i.longPosition.calculateMarginUsed s).marginUsed := by
  unfold Instrument.calculateMarginUsed
  rw [h]
  norm_num [NoHedge, FullHedge, HalfHedge]

theorem calculateMarginUsed_margin_fullHedge (i : Instrument) (s : Store)
    (h : i.hedgeType = FullHedge) :
    (i.calculateMarginUsed s).marginUsed =
      |(i.shortPosition.calculateMarginUsed s).marginUsed
        - (i.longPosition.calculateMarginUsed s).marginUsed| := by
  unfold Instrument.calculateMarginUsed
  rw [h]
  norm_num [NoHedge, FullHedge, HalfHedge]

theorem calculateMarginUsed_margin_halfHedge (i : Instrument) (s : Store)
    (h : i.hedgeType = HalfHedge) :
    (i.calculateMarginUsed s).marginUsed =
      max (i.shortPosition.calculateMarginUsed s).marginUsed
        (i.longPosition.calculateMarginUsed s).marginUsed := by
  unfold Instrument.calculateMarginUsed
  rw [h]
  norm_num [NoHedge, FullHedge, HalfHedge]
  rcases le_or_lt (i.shortPosition.calculateMarginUsed s).marginUsed
    (i.longPosition.calculateMarginUsed s).marginUsed with hle | hlt
  · rw [if_neg (not_lt.mpr hle), max_eq_right hle]
  · rw [if_pos hlt, max_eq_left hlt.le]

theorem calculateMarginUsed_margin_other (i : Instrument) (s : Store)
    (h1 : i.hedgeType ≠ NoHedge) (h2 : i.hedgeType ≠ FullHedge)
    (h3 : i.hedgeType ≠ HalfHedge) :
    (i.calculateMarginUsed s).marginUsed = i.marginUsed := by
  unfold Instrument.calculateMarginUsed
  rw [if_neg h1, if_neg h2, if_neg h3]

/-- C1: calculateMarginUsed combines the two recomputed positions'
margins according to the hedge policy: NoHedge gives long + short,
FullHedge gives the absolute difference of short and long, HalfHedge
gives the maximum of the two. -/
theorem marginUsed_follows_hedge_policy (i : Instrument) (s : Store) :
    (i.hedgeType = NoHedge →
      (i.calculateMarginUsed s).marginUsed =
        (i.longPosition.calculateMarginUsed s).marginUsed
          + (i.shortPosition.calculateMarginUsed s).marginUsed) ∧
    (i.hedgeType = FullHedge →
      (i.calculateMarginUsed s).marginUsed =
        |(i.shortPosition.calculateMarginUsed s).marginUsed
          - (i.longPosition.calculateMarginUsed s).marginUsed|) ∧
    (i.hedgeType = HalfHedge →
      (i.calculateMarginUsed s).marginUsed =
        max (i.longPosition.calculateMarginUsed s).marginUsed
          (i.shortPosition.calculateMarginUsed s).marginUsed) :=
  ⟨fun h => by rw [calculateMarginUsed_margin_noHedge i s h, add_comm],
   fun h => calculateMarginUsed_margin_fullHedge i s h,
   fun h => by rw [calculateMarginUsed_margin_halfHedge i s h, max_comm]⟩

/-- Witness for C1 on a concrete instrument (long 1000 units at bid 1.09,
short 500 units at ask 1.10, leverage 50) under each of the three
policies: 21.8 + 11, |11 − 21.8|, max 21.8 11. -/
theorem marginUsed_follows_hedge_policy_witness :
    ({ instEx2 with hedgeType := NoHedge }.calculateMarginUsed storeEx3).marginUsed = 164/5 ∧
    (instEx2.calculateMarginUsed storeEx3).marginUsed = 54/5 ∧
    ({ instEx2 with hedgeType := HalfHedge }.calculateMarginUsed storeEx3).marginUsed = 109/5 :=
  ⟨by rw [(marginUsed_follows_hedge_policy { instEx2 with hedgeType := NoHedge } storeEx3).1 rfl]
      simp [instEx2, instEx, storeEx3, storeEx, alloc0, newInstrument, Alloc.alloc,
        newPosition, newTrade, Instrument.openTrade, Instrument.updatePrice,
        Position.openTrade, Position.calculateMarginUsed, Trade.marginRequired, write, hmSet]
      norm_num,
   by rw [(marginUsed_follows_hedge_policy instEx2 storeEx3).2.1 (by decide)]
      simp [instEx2, instEx, storeEx3, storeEx, alloc0, newInstrument, Alloc.alloc,
        newPosition, newTrade, Instrument.openTrade, Instrument.updatePrice,
        Position.openTrade, Position.calculateMarginUsed, Trade.marginRequired, write, hmSet]
      norm_num,
   by rw [(marginUsed_follows_hedge_policy { instEx2 with hedgeType := HalfHedge } storeEx3).2.2 rfl]
      simp [instEx2, instEx, storeEx3, storeEx, alloc0, newInstrument, Alloc.alloc,
        newPosition, newTrade, Instrument.openTrade, Instrument.updatePrice,
        Position.openTrade, Position.calculateMarginUsed, Trade.marginRequired, write, hmSet]
      norm_num⟩

/-- C4: with a hedge policy matching none of the three constants,
calculateMarginUsed leaves the instrument-level marginUsed exactly as it
was, while both positions' own margins are still recomputed; the
operation is total (no error path exists). -/
theorem marginUsed_unrecognized_policy_noop (i : Instrument) (s : Store)
    (h1 : i.hedgeType ≠ NoHedge) (h2 : i.hedgeType ≠ FullHedge)
    (h3 : i.hedgeType ≠ HalfHedge) :
    (i.calculateMarginUsed s).marginUsed = i.marginUsed ∧
    (i.calculateMarginUsed s).shortPosition = i.shortPosition.calculateMarginUsed s ∧
    (i.calculateMarginUsed s).longPosition = i.longPosition.calculateMarginUsed s :=
  ⟨calculateMarginUsed_margin_other i s h1 h2 h3,
   calculateMarginUsed_short i s, calculateMarginUsed_long i s⟩

/-- Witness for C4: hedge value 3 (not a declared constant) leaves the
previously held margin (set here to 7) untouched while the short
position's margin is recomputed to 11. -/
theorem marginUsed_unrecognized_policy_noop_witness :
    ({ instEx2 with hedgeType := 3, marginUsed := 7 }.calculateMarginUsed storeEx3).marginUsed = 7 ∧
    ({ instEx2 with hedgeType := 3, marginUsed := 7 }.calculateMarginUsed
        storeEx3).shortPosition.marginUsed = 11 :=
  have h := marginUsed_unrecognized_policy_noop
    { instEx2 with hedgeType := 3, marginUsed := 7 } storeEx3
    (by decide) (by decide) (by decide)
  ⟨by rw [h.1],
   by rw [h.2.1]
      simp [instEx2, instEx, storeEx3, storeEx, alloc0, newInstrument, Alloc.alloc,
        newPosition, newTrade, Instrument.openTrade, Instrument.updatePrice,
        Position.openTrade, Position.calculateMarginUsed, Trade.marginRequired, write, hmSet]
      norm_num⟩

/-- C10: a freshly constructed instrument has hedge policy FullHedge (the
Go zero value of Hedge, since newInstrument never assigns hedgeType) and
ask = bid = 0 in the store; consequently calculateMarginUsed on it always
applies the absolute-difference rule, whatever the store. -/
theorem newInstrument_fullHedge_default (name b q : String) (L : ℚ) (a : Alloc) (s : Store) :
    (newInstrument name b q L a).1.hedgeType = FullHedge ∧
    (newInstrument name b q L a).2.store (newInstrument name b q L a).1.ask = 0 ∧
    (newInstrument name b q L a).2.store (newInstrument name b q L a).1.bid = 0 ∧
    ((newInstrument name b q L a).1.calculateMarginUsed s).marginUsed =
      |((newInstrument name b q L a).1.shortPosition.calculateMarginUsed s).marginUsed
        - ((newInstrument name b q L a).1.longPosition.calculateMarginUsed s).marginUsed| := by
  refine ⟨rfl, ?_, ?_, calculateMarginUsed_margin_fullHedge _ s rfl⟩
  · show write (write (write (write a.store a.next L) (a.next+1) L) (a.next+2) 0)
      (a.next+3) 0 (a.next+2) = 0
    rw [write_read_other _ (a.next+3) 0 (a.next+2)
      (fun hc => absurd (Nat.add_left_cancel hc) (by decide)), write_read_same]
  · exact write_read_same _ _ _

/-- C8: updatePrice stores the tick's ask and bid into the instrument's
two price cells and changes nothing else: the instrument record (registry,
ordered index, both positions, leverage and hedge fields, every aggregate
figure) is returned untouched, and every store cell other than the ask
and bid cells keeps its value; no recomputation happens. -/
theorem updatePrice_stores_tick_and_frames (i : Instrument) (tick : Tick) (s : Store)
    (h : i.ask ≠ i.bid) :
    (i.updatePrice tick s).1 = i ∧
    (i.updatePrice tick s).2 i.ask = tick.Ask ∧
    (i.updatePrice tick s).2 i.bid = tick.Bid ∧
    ∀ c : CellId, c ≠ i.ask → c ≠ i.bid → (i.updatePrice tick s).2 c = s c := by
  refine ⟨rfl, ?_, write_read_same _ _ _, fun c hca hcb => ?_⟩
  · show write (write s i.ask tick.Ask) i.bid tick.Bid i.ask = tick.Ask
    rw [write_read_other _ _ _ _ h, write_read_same]
  · show write (write s i.ask tick.Ask) i.bid tick.Bid c = s c
    rw [write_read_other _ _ _ _ hcb, write_read_other _ _ _ _ hca]

/-- Witness for C8: a 1.10/1.09 tick on the fresh example instrument is
stored in the ask and bid cells while the instrument record and the
leverage cell are untouched. -/
theorem updatePrice_stores_tick_and_frames_witness :
    (instEx.updatePrice ⟨11/10, 109/100⟩ storeEx).1 = instEx ∧
    (instEx.updatePrice ⟨11/10, 109/100⟩ storeEx).2 instEx.ask = 11/10 ∧
    (instEx.updatePrice ⟨11/10, 109/100⟩ storeEx).2 instEx.bid = 109/100 ∧
    (instEx.updatePrice ⟨11/10, 109/100⟩ storeEx).2 instEx.leverage = 50 :=
  have h := updatePrice_stores_tick_and_frames instEx ⟨11/10, 109/100⟩ storeEx (by decide)
  ⟨h.1, h.2.1, h.2.2.1,
   by rw [h.2.2.2 instEx.leverage (by decide) (by decide)]; decide⟩

/-- C5: openTrade registers under id a trade whose live-price reference
is the instrument's ask cell when the side is Short and its bid cell
otherwise, appends id to the ordered index, and hands the trade to the
short position exactly when the side is Short and to the long position
otherwise. -/
theorem openTrade_wiring (i : Instrument) (id : String) (side : Side)
    (t : Nat) (u : Int) (px : ℚ) :
    hmGet (i.openTrade id side t u px).trades id
      = some { newTrade id i.name side u t px with
          leverage := i.leverage,
          currentPrice := if side = Side.Short then i.ask else i.bid } ∧
    (i.openTrade id side t u px).tradesTimeOrder = i.tradesTimeOrder ++ [id] ∧
    (i.openTrade id side t u px).shortPosition =
      (if side = Side.Short then
        i.shortPosition.openTrade
          { newTrade id i.name side u t px with leverage := i.leverage, currentPrice := i.ask }
       else i.shortPosition) ∧
    (i.openTrade id side t u px).longPosition =
      (if side = Side.Short then i.longPosition
       else i.longPosition.openTrade
          { newTrade id i.name side u t px with leverage := i.leverage, currentPrice := i.bid }) := by
  cases side <;>
    simp [Instrument.openTrade, hmGet_hmSet_self, newTrade]

/-- C9: the leverage value the positions reference is the escaped local
parameter of newInstrument, a cell distinct from the instrument's atomic
leverage cell that openTrade binds into every trade; a later store of v
into the atomic cell is observable through the opened trade's reference
while both positions' reference still reads the construction-time
leverage. -/
theorem leverage_cell_aliasing (name b q : String) (L v : ℚ) (a : Alloc)
    (id : String) (side : Side) (t : Nat) (u : Int) (px : ℚ) :
    (newInstrument name b q L a).1.longPosition.leverageRef
        ≠ (newInstrument name b q L a).1.leverage ∧
    (newInstrument name b q L a).1.shortPosition.leverageRef
        = (newInstrument name b q L a).1.longPosition.leverageRef ∧
    (hmGet ((newInstrument name b q L a).1.openTrade id side t u px).trades id).map
        Trade.leverage = some (newInstrument name b q L a).1.leverage ∧
    write (newInstrument name b q L a).2.store (newInstrument name b q L a).1.leverage v
        (newInstrument name b q L a).1.leverage = v ∧
    write (newInstrument name b q L a).2.store (newInstrument name b q L a).1.leverage v
        (newInstrument name b q L a).1.longPosition.leverageRef = L ∧
    (newInstrument name b q L a).2.store
        (newInstrument name b q L a).1.longPosition.leverageRef = L := by
  have hread : (newInstrument name b q L a).2.store (a.next + 1) = L := by
    show write (write (write (write a.store a.next L) (a.next+1) L) (a.next+2) 0)
      (a.next+3) 0 (a.next+1) = L
    rw [write_read_other _ (a.next+3) 0 (a.next+1)
        (fun hc => absurd (Nat.add_left_cancel hc) (by decide)),
      write_read_other _ (a.next+2) 0 (a.next+1)
        (fun hc => absurd (Nat.add_left_cancel hc) (by decide)), write_read_same]
  refine ⟨Nat.succ_ne_self a.next, rfl, ?_, write_read_same _ _ _, ?_, ?_⟩
  · cases side <;> simp [Instrument.openTrade, hmGet_hmSet_self, newTrade, newInstrument,
      Alloc.alloc]
  · show write (newInstrument name b q L a).2.store a.next v (a.next + 1) = L
    rw [write_read_other _ a.next v (a.next+1) (Nat.succ_ne_self a.next)]
    exact hread
  · exact hread

theorem hmGet_eq_none_iff (m : Registry) (k : String) :
    hmGet m k = none ↔ ∀ p ∈ m, p.1 ≠ k := by
  simp [hmGet]

theorem not_mem_keys_of_hmGet_none (m : Registry) (k : String)
    (h : hmGet m k = none) : k ∉ m.map Prod.fst := by
  rw [hmGet_eq_none_iff] at h
  simp only [List.mem_map]
  rintro ⟨p, hp, hk⟩
  exact h p hp hk

theorem hmGet_none_of_not_mem_keys (m : Registry) (k : String)
    (h : k ∉ m.map Prod.fst) : hmGet m k = none := by
  rw [hmGet_eq_none_iff]
  intro p hp hk
  exact h (List.mem_map.mpr ⟨p, hp, hk⟩)

theorem hmGet_hmDel_self (m : Registry) (k : String) : hmGet (hmDel m k) k = none := by
  rw [hmGet_eq_none_iff]
  intro p hp
  exact of_decide_eq_true (List.mem_filter.mp hp).2

theorem closeTrade_absent_frame (i : Instrument) (id : String)
    (h : hmGet i.trades id = none) :
    i.closeTrade id =
      { i with tradesTimeOrder := i.tradesTimeOrder.filter (fun x => x ≠ id) } := by
  unfold Instrument.closeTrade
  simp [h]

theorem hmGet_closeTrade_self (i : Instrument) (id : String) :
    hmGet (i.closeTrade id).trades id = none := by
  unfold Instrument.closeTrade
  cases hg : hmGet i.trades id with
  | none => simpa [hg] using hg
  | some tr =>
    simp only [hg]
    split_ifs <;> exact hmGet_hmDel_self _ _

/-- C3: closing an identifier that is not in the registry changes no
registry entry, neither position, and no aggregate figure (the warning is
only logged; the operation is total); consequently a second closeTrade of
the same identifier leaves all that state exactly as after the first. -/
theorem closeTrade_unknown_noop (i : Instrument) (id : String) :
    (hmGet i.trades id = none →
      (i.closeTrade id).trades = i.trades ∧
      (i.closeTrade id).longPosition = i.longPosition ∧
      (i.closeTrade id).shortPosition = i.shortPosition ∧
      (i.closeTrade id).unrealizedNetProfit = i.unrealizedNetProfit ∧
      (i.closeTrade id).unrealizedEffectiveProfit = i.unrealizedEffectiveProfit ∧
      (i.closeTrade id).marginUsed = i.marginUsed ∧
      (i.closeTrade id).chargedFees = i.chargedFees) ∧
    ((i.closeTrade id).closeTrade id).trades = (i.closeTrade id).trades ∧
    ((i.closeTrade id).closeTrade id).longPosition = (i.closeTrade id).longPosition ∧
    ((i.closeTrade id).closeTrade id).shortPosition = (i.closeTrade id).shortPosition ∧
    ((i.closeTrade id).closeTrade id).unrealizedNetProfit
      = (i.closeTrade id).unrealizedNetProfit ∧
    ((i.closeTrade id).closeTrade id).unrealizedEffectiveProfit
      = (i.closeTrade id).unrealizedEffectiveProfit ∧
    ((i.closeTrade id).closeTrade id).marginUsed = (i.closeTrade id).marginUsed ∧
    ((i.closeTrade id).closeTrade id).chargedFees = (i.closeTrade id).chargedFees := by
  constructor
  · intro h
    rw [closeTrade_absent_frame i id h]
    exact ⟨rfl, rfl, rfl, rfl, rfl, rfl, rfl⟩
  · rw [closeTrade_absent_frame _ _ (hmGet_closeTrade_self i id)]
    exact ⟨rfl, rfl, rfl, rfl, rfl, rfl, rfl⟩

/-- Witness for C3: closing the unknown id does not shrink the registry
of the two-trade example instrument, and the double close of a known id
leaves the long position as after the first close. -/
theorem closeTrade_unknown_noop_witness :
    (instEx2.closeTrade "zz").trades = instEx2.trades ∧
    ((instEx2.closeTrade "a").closeTrade "a").longPosition
      = (instEx2.closeTrade "a").longPosition :=
  ⟨((closeTrade_unknown_noop instEx2 "zz").1 (by decide)).1,
   (closeTrade_unknown_noop instEx2 "a").2.2.1⟩

/-- C6: after calculateUnrealized the instrument's unrealized net profit,
unrealized effective profit and charged fees are each the sum of the two
recomputed positions' figures, and — when each recomputed position
satisfies effective = net + fees — the instrument's effective profit
equals its net profit plus its charged fees. -/
theorem calculateUnrealized_sums (i : Instrument) (s : Store)
    (hl : (i.longPosition.calculateUnrealized s).unrealizedEffectiveProfit
        = (i.longPosition.calculateUnrealized s).unrealizedNetProfit
          + (i.longPosition.calculateUnrealized s).chargedFees)
    (hs : (i.shortPosition.calculateUnrealized s).unrealizedEffectiveProfit
        = (i.shortPosition.calculateUnrealized s).unrealizedNetProfit
          + (i.shortPosition.calculateUnrealized s).chargedFees) :
    (i.calculateUnrealized s).unrealizedNetProfit
      = (i.calculateUnrealized s).longPosition.unrealizedNetProfit
        + (i.calculateUnrealized s).shortPosition.unrealizedNetProfit ∧
    (i.calculateUnrealized s).unrealizedEffectiveProfit
      = (i.calculateUnrealized s).longPosition.unrealizedEffectiveProfit
        + (i.calculateUnrealized s).shortPosition.unrealizedEffectiveProfit ∧
    (i.calculateUnrealized s).chargedFees
      = (i.calculateUnrealized s).longPosition.chargedFees
        + (i.calculateUnrealized s).shortPosition.chargedFees ∧
    (i.calculateUnrealized s).unrealizedEffectiveProfit
      = (i.calculateUnrealized s).unrealizedNetProfit
        + (i.calculateUnrealized s).chargedFees := by
  refine ⟨rfl, rfl, rfl, ?_⟩
  show (i.longPosition.calculateUnrealized s).unrealizedEffectiveProfit
      + (i.shortPosition.calculateUnrealized s).unrealizedEffectiveProfit
    = (i.longPosition.calculateUnrealized s).unrealizedNetProfit
        + (i.shortPosition.calculateUnrealized s).unrealizedNetProfit
      + ((i.longPosition.calculateUnrealized s).chargedFees
        + (i.shortPosition.calculateUnrealized s).chargedFees)
  rw [hl, hs]
  ring

/-- Witness for C6 on the two-trade example after the 1.10/1.09 tick:
long P&L (1.09 − 1) × 1000 = 90, short P&L (2 − 1.10) × 500 = 450, no
fees, so net = effective = 540. -/
theorem calculateUnrealized_sums_witness :
    (instEx2.calculateUnrealized storeEx3).unrealizedNetProfit = 540 ∧
    (instEx2.calculateUnrealized storeEx3).unrealizedEffectiveProfit = 540 ∧
    (instEx2.calculateUnrealized storeEx3).chargedFees = 0 :=
  have h := calculateUnrealized_sums instEx2 storeEx3 rfl rfl
  ⟨by rw [h.1]
      simp [instEx2, instEx, storeEx3, storeEx, alloc0, newInstrument, Alloc.alloc,
        newPosition, newTrade, Instrument.openTrade, Instrument.updatePrice,
        Instrument.calculateUnrealized, Position.openTrade, Position.calculateUnrealized,
        Trade.unrealizedPnl, write, hmSet]
      norm_num,
   by rw [h.2.1]
      simp [instEx2, instEx, storeEx3, storeEx, alloc0, newInstrument, Alloc.alloc,
        newPosition, newTrade, Instrument.openTrade, Instrument.updatePrice,
        Instrument.calculateUnrealized, Position.openTrade, Position.calculateUnrealized,
        Trade.unrealizedPnl, write, hmSet]
      norm_num,
   by rw [h.2.2.1]
      simp [instEx2, instEx, storeEx3, storeEx, alloc0, newInstrument, Alloc.alloc,
        newPosition, newTrade, Instrument.openTrade, Instrument.updatePrice,
        Instrument.calculateUnrealized, Position.openTrade, Position.calculateUnrealized,
        Trade.unrealizedPnl, write, hmSet]⟩

/-- C7: feeding the same position state (hence the same two non-negative
per-position margins) to each policy, the FullHedge margin is at most the
NoHedge margin, and the HalfHedge margin lies between the two. -/
theorem hedge_policy_margin_ordering (i : Instrument) (s : Store)
    (hs : 0 ≤ (i.shortPosition.calculateMarginUsed s).marginUsed)
    (hl : 0 ≤ (i.longPosition.calculateMarginUsed s).marginUsed) :
    (({ i with hedgeType := FullHedge }).calculateMarginUsed s).marginUsed
      ≤ (({ i with hedgeType := NoHedge }).calculateMarginUsed s).marginUsed ∧
    (({ i with hedgeType := FullHedge }).calculateMarginUsed s).marginUsed
      ≤ (({ i with hedgeType := HalfHedge }).calculateMarginUsed s).marginUsed ∧
    (({ i with hedgeType := HalfHedge }).calculateMarginUsed s).marginUsed
      ≤ (({ i with hedgeType := NoHedge }).calculateMarginUsed s).marginUsed := by
  have hfull : (({ i with hedgeType := FullHedge }).calculateMarginUsed s).marginUsed
      = |(i.shortPosition.calculateMarginUsed s).marginUsed
          - (i.longPosition.calculateMarginUsed s).marginUsed| :=
    calculateMarginUsed_margin_fullHedge _ s rfl
  have hno : (({ i with hedgeType := NoHedge }).calculateMarginUsed s).marginUsed
      = (i.shortPosition.calculateMarginUsed s).marginUsed
          + (i.longPosition.calculateMarginUsed s).marginUsed :=
    calculateMarginUsed_margin_noHedge _ s rfl
  have hhalf : (({ i with hedgeType := HalfHedge }).calculateMarginUsed s).marginUsed
      = max (i.shortPosition.calculateMarginUsed s).marginUsed
          (i.longPosition.calculateMarginUsed s).marginUsed :=
    calculateMarginUsed_margin_halfHedge _ s rfl
  rw [hfull, hno, hhalf]
  refine ⟨abs_sub_le_iff.mpr ⟨by linarith, by linarith⟩, ?_,
    max_le (by linarith) (by linarith)⟩
  rcases le_total (i.shortPosition.calculateMarginUsed s).marginUsed
    (i.longPosition.calculateMarginUsed s).marginUsed with hc | hc
  · rw [abs_of_nonpos (by linarith)]
    have := le_max_right (i.shortPosition.calculateMarginUsed s).marginUsed
      (i.longPosition.calculateMarginUsed s).marginUsed
    linarith
  · rw [abs_of_nonneg (by linarith)]
    have := le_max_left (i.shortPosition.calculateMarginUsed s).marginUsed
      (i.longPosition.calculateMarginUsed s).marginUsed
    linarith

/-- Witness for C7 on the two-trade example (short margin 11, long
margin 21.8): 10.8 ≤ 32.8, 10.8 ≤ 21.8 and 21.8 ≤ 32.8. -/
theorem hedge_policy_margin_ordering_witness :
    (({ instEx2 with hedgeType := FullHedge }).calculateMarginUsed storeEx3).marginUsed
      ≤ (({ instEx2 with hedgeType := NoHedge }).calculateMarginUsed storeEx3).marginUsed ∧
    (({ instEx2 with hedgeType := FullHedge }).calculateMarginUsed storeEx3).marginUsed
      ≤ (({ instEx2 with hedgeType := HalfHedge }).calculateMarginUsed storeEx3).marginUsed ∧
    (({ instEx2 with hedgeType := HalfHedge }).calculateMarginUsed storeEx3).marginUsed
      ≤ (({ instEx2 with hedgeType := NoHedge }).calculateMarginUsed storeEx3).marginUsed :=
  hedge_policy_margin_ordering instEx2 storeEx3
    (by simp [instEx2, instEx, storeEx3, storeEx, alloc0, newInstrument, Alloc.alloc,
          newPosition, newTrade, Instrument.openTrade, Instrument.updatePrice,
          Position.openTrade, Position.calculateMarginUsed, Trade.marginRequired, write, hmSet]
        norm_num)
    (by simp [instEx2, instEx, storeEx3, storeEx, alloc0, newInstrument, Alloc.alloc,
          newPosition, newTrade, Instrument.openTrade, Instrument.updatePrice,
          Position.openTrade, Position.calculateMarginUsed, Trade.marginRequired, write, hmSet]
        norm_num)

/-! Registry/ordered-index invariant machinery for the lifecycle traces. -/

theorem filter_eq_self_of_hmGet_none (m : Registry) (k : String)
    (h : hmGet m k = none) : m.filter (fun p => p.1 ≠ k) = m := by
  rw [hmGet_eq_none_iff] at h
  apply List.filter_eq_self.mpr
  intro p hp
  exact decide_eq_true (h p hp)

theorem openTrade_keys (i : Instrument) (id : String) (side : Side)
    (t : Nat) (u : Int) (px : ℚ) :
    (i.openTrade id side t u px).trades.map Prod.fst
      = id :: (i.trades.filter (fun p => p.1 ≠ id)).map Prod.fst := by
  unfold Instrument.openTrade
  split_ifs <;> rfl

theorem openTrade_index (i : Instrument) (id : String) (side : Side)
    (t : Nat) (u : Int) (px : ℚ) :
    (i.openTrade id side t u px).tradesTimeOrder = i.tradesTimeOrder ++ [id] := by
  unfold Instrument.openTrade
  split_ifs <;> rfl

theorem closeTrade_index (i : Instrument) (id : String) :
    (i.closeTrade id).tradesTimeOrder
      = i.tradesTimeOrder.filter (fun x => x ≠ id) := by
  simp only [Instrument.closeTrade]
  cases h : hmGet i.trades id with
  | none => rfl
  | some tr =>
    dsimp only
    split_ifs <;> rfl

theorem closeTrade_trades_present (i : Instrument) (id : String) (tr : Trade)
    (h : hmGet i.trades id = some tr) :
    (i.closeTrade id).trades = hmDel i.trades id := by
  simp only [Instrument.closeTrade, h]
  split_ifs <;> rfl

theorem keys_hmDel (m : Registry) (k : String) :
    (hmDel m k).map Prod.fst = (m.map Prod.fst).filter (fun x => x ≠ k) := by
  induction m with
  | nil => rfl
  | cons p m ih =>
    simp only [hmDel, ne_eq, decide_not] at ih ⊢
    by_cases hp : p.1 = k <;>
      simp [List.filter_cons, hp, ih]

theorem RegIndexInv_openTrade (i : Instrument) (id : String) (side : Side)
    (t : Nat) (u : Int) (px : ℚ) (hInv : RegIndexInv i)
    (h : hmGet i.trades id = none) :
    RegIndexInv (i.openTrade id side t u px) := by
  obtain ⟨hperm, hnd⟩ := hInv
  have hid : id ∉ i.tradesTimeOrder := fun hmem =>
    not_mem_keys_of_hmGet_none i.trades id h (hperm.mem_iff.mpr hmem)
  constructor
  · rw [openTrade_keys, openTrade_index, filter_eq_self_of_hmGet_none i.trades id h]
    exact (hperm.cons id).trans (List.perm_append_singleton id i.tradesTimeOrder).symm
  · rw [openTrade_index]
    refine List.Nodup.append hnd (List.nodup_singleton id) ?_
    intro x hx1 hx2
    rw [List.mem_singleton] at hx2
    subst hx2
    exact hid hx1

theorem RegIndexInv_closeTrade (i : Instrument) (id : String)
    (hInv : RegIndexInv i) : RegIndexInv (i.closeTrade id) := by
  obtain ⟨hperm, hnd⟩ := hInv
  cases hg : hmGet i.trades id with
  | none =>
    have hid : id ∉ i.tradesTimeOrder := fun hmem =>
      not_mem_keys_of_hmGet_none i.trades id hg (hperm.mem_iff.mpr hmem)
    rw [closeTrade_absent_frame i id hg]
    refine ⟨?_, hnd.filter _⟩
    show List.Perm (i.trades.map Prod.fst) (i.tradesTimeOrder.filter (fun x => x ≠ id))
    have : i.tradesTimeOrder.filter (fun x => x ≠ id) = i.tradesTimeOrder := by
      apply List.filter_eq_self.mpr
      intro x hx
      have hxne : x ≠ id := by
        intro he
        subst he
        exact hid hx
      exact decide_eq_true hxne
    rw [this]
    exact hperm
  | some tr =>
    constructor
    · rw [closeTrade_trades_present i id tr hg, closeTrade_index, keys_hmDel]
      exact hperm.filter _
    · rw [closeTrade_index]
      exact hnd.filter _

theorem RegIndexInv_runEvents (i : Instrument) (es : List Event)
    (hInv : RegIndexInv i) (hND : NoDupOpens i es) :
    RegIndexInv (runEvents i es) := by
  induction es generalizing i with
  | nil => exact hInv
  | cons e es ih =>
    cases e with
    | openT id side t u px =>
      exact ih _ (RegIndexInv_openTrade i id side t u px hInv hND.1) hND.2
    | closeT id =>
      exact ih _ (RegIndexInv_closeTrade i id hInv) hND.2

/-- C2 counterexample: starting from the fresh example instrument, two
openTrade calls with the same identifier leave the identifier registered
once in the registry but twice in the ordered index, so the invariant
fails as stated for sequences containing a duplicate open. -/
theorem registry_index_invariant_cex :
    (hmGet (runEvents instEx
        [Event.openT "a" Side.Long 0 1000 1,
         Event.openT "a" Side.Long 1 1000 1]).trades "a").isSome = true ∧
    (runEvents instEx
        [Event.openT "a" Side.Long 0 1000 1,
         Event.openT "a" Side.Long 1 1000 1]).tradesTimeOrder.count "a" = 2 := by
  decide

/-- C2 (amended): for every sequence of openTrade and closeTrade calls
starting from a fresh instrument in which no openTrade reuses an
identifier registered at the moment of the call, the registry's key set
and the ordered index hold the same identifiers and each exactly once. -/
theorem registry_index_invariant (name b q : String) (L : ℚ) (a : Alloc)
    (es : List Event)
    (hND : NoDupOpens (newInstrument name b q L a).1 es) :
    RegIndexInv (runEvents (newInstrument name b q L a).1 es) :=
  RegIndexInv_runEvents _ es ⟨List.Perm.nil, List.nodup_nil⟩ hND

/-- Witness for C2 on a concrete admissible trace: open a, open b, close
a twice (the second close is the no-op path), then re-open a. -/
theorem registry_index_invariant_witness :
    RegIndexInv (runEvents instEx
      [Event.openT "a" Side.Long 0 1000 1, Event.openT "b" Side.Short 1 500 2,
       Event.closeT "a", Event.closeT "a", Event.openT "a" Side.Long 2 10 1]) :=
  registry_index_invariant "EUR_USD" "EUR" "USD" 50 alloc0
    [Event.openT "a" Side.Long 0 1000 1, Event.openT "b" Side.Short 1 500 2,
     Event.closeT "a", Event.closeT "a", Event.openT "a" Side.Long 2 10 1]
    (by decide)

end GoTrader
